import Mathlib

/-!
Verification of the pagination / CRUD route contract of the node-hono-react
monorepo template. The embedding follows the canonical endpoint templates of the
backend skill document (`listRoute`, `addRoute`, `editRoute`): a record store is
observed as a list of rows together with fault flags for the two SQL queries a
list request issues; the drizzle query chain
`.select().from(t).where(and(...filters)).limit(pageSize).offset(offset)` is
embedded as filter / drop / take over the observed row order, and drizzle's
`like` operator is given full SQL LIKE pattern semantics (case-sensitive, `%`
and `_` wildcards). `createPage` and the pagination request schema live in
`apps/backend/src/pagination.ts`, which is not among the provided sources, and
are therefore modelled from the spec.
-/

/-- A row of the feature's table, as defined by the Drizzle table template:
a `uuid` primary key column `entityId` and a `varchar` column `name`. -/
structure Entity where
  entityId : String
  name : String
deriving DecidableEq, Repr

/-- SQL LIKE pattern matching on characters, the semantics the SQL engine gives
to drizzle-orm's `like(column, pattern)`: `%` matches any (possibly empty)
sequence of characters, `_` matches exactly one character, and every other
pattern character matches exactly itself, case-sensitively. -/
def likeMatch : List Char → List Char → Bool
  | [], t => t.isEmpty
  | a :: ps, t =>
    if a = '%' then t.tails.any (fun u => likeMatch ps u)
    else
      match t with
      | [] => false
      | c :: ts => (a == '_' || a == c) && likeMatch ps ts

/-- The filter list built by `listRoute`: `const filters: SQL[] = []` followed by
`if (name) filters.push(like(entities.name, `%name%`))`. A JavaScript falsy
check: the filter is pushed only when `name` is present and nonempty. -/
def nameFilters (n? : Option String) : List (Entity → Bool) :=
  match n? with
  | none => []
  | some n =>
    if n.isEmpty then []
    else [fun e => likeMatch ("%" ++ n ++ "%").data e.name.data]

/-- The WHERE predicate `and(...filters)`: the conjunction of the pushed
filters; drizzle's `and()` of an empty list places no restriction, so an empty
filter set matches every row. -/
def rowPred (n? : Option String) (e : Entity) : Bool :=
  (nameFilters n?).all (fun f => f e)

/-- The `Page<T>` response envelope: current window of items plus
`totalCount`, `pageNumber`, `pageSize` and the derived `totalPages`. -/
structure Page (T : Type) where
  items : List T
  totalCount : Nat
  pageNumber : Nat
  pageSize : Nat
  totalPages : Nat
deriving DecidableEq, Repr

/-- Modelled from the spec: `createPage` is defined in
`apps/backend/src/pagination.ts`, which is not among the provided sources. Per
spec §4.1 step 4 it assembles
`{ items, totalCount, pageNumber, pageSize, totalPages: ceil(totalCount / pageSize) }`;
on naturals `ceil(a / b) = (a + b - 1) / b`. -/
def createPage {T : Type} (items : List T) (totalCount pageNumber pageSize : Nat) :
    Page T :=
  { items := items
    totalCount := totalCount
    pageNumber := pageNumber
    pageSize := pageSize
    totalPages := (totalCount + pageSize - 1) / pageSize }

/-- A raw query-string value as seen by the validator before coercion:
absent, an integer, or something that is not an integer. -/
inductive RawValue where
  | missing
  | intVal (n : Int)
  | nonInt
deriving DecidableEq, Repr

/-- The raw query of a list request before validation: the pagination fields
plus the optional `name` filter added by `listEntitiesSchema`. -/
structure RawListQuery where
  pageNumber : RawValue
  pageSize : RawValue
  name : Option String
deriving DecidableEq, Repr

/-- The validated list parameters handed to the route handler. -/
structure ListParams where
  pageNumber : Nat
  pageSize : Nat
  name : Option String
deriving DecidableEq, Repr

/-- Modelled from the spec: the page-size cap of `paginationSchema`
(`apps/backend/src/pagination.ts` is not among the provided sources); the spec
bounds `pageSize` above by a configured maximum "e.g. ≤ some maximum like 100". -/
def maxPageSize : Nat := 100

/-- Modelled from the spec: `paginationSchema` validation of `pageNumber`
(not among the provided sources): a positive integer, default 1; non-integer
or non-positive values are a validation error, never clamped. -/
def validatePageNumber : RawValue → Option Nat
  | .missing => some 1
  | .intVal n => if 1 ≤ n then some n.toNat else none
  | .nonInt => none

/-- Modelled from the spec: `paginationSchema` validation of `pageSize`
(not among the provided sources): a positive integer, default 10, at most
`maxPageSize`; out-of-range or non-integer values are a validation error,
never clamped. -/
def validatePageSize : RawValue → Option Nat
  | .missing => some 10
  | .intVal n => if 1 ≤ n ∧ n ≤ (maxPageSize : Int) then some n.toNat else none
  | .nonInt => none

/-- Modelled from the spec: the full `zValidator('query', listEntitiesSchema)`
step that runs before the handler. It validates both pagination fields and
passes the optional `name` filter through unchanged. -/
def validateListQuery (q : RawListQuery) : Option ListParams :=
  match validatePageNumber q.pageNumber, validatePageSize q.pageSize with
  | some pn, some ps => some { pageNumber := pn, pageSize := ps, name := q.name }
  | _, _ => none

/-- Failure modes of a list request: the validator rejected the query, or one
of the two store queries failed (spec §7: ValidationError / StoreError). -/
inductive ListError where
  | validation
  | store
deriving DecidableEq, Repr

/-- One request's observation of the record store. `rows` lists the table's
records in the order this request's queries enumerate them: the fetch query in
`listRoute` carries no ORDER BY, so SQL fixes only the multiset of rows, never
this order, and two executions over the very same table may enumerate its rows
differently. `countFault` / `fetchFault` inject a failure (connectivity,
timeout, ...) of the corresponding query. -/
structure StoreConn where
  rows : List Entity
  countFault : Bool
  fetchFault : Bool
deriving DecidableEq, Repr

/-- The count query of `listRoute`:
`select({ totalCount: count() }).from(entities).where(and(...filters))`. -/
def runCount (s : StoreConn) (pred : Entity → Bool) : Except ListError Nat :=
  if s.countFault then .error .store
  else .ok (s.rows.filter pred).length

/-- The fetch query of `listRoute`:
`select().from(entities).where(and(...filters)).limit(lim).offset(off)`;
SQL applies OFFSET before LIMIT. -/
def runFetch (s : StoreConn) (pred : Entity → Bool) (lim off : Nat) :
    Except ListError (List Entity) :=
  if s.fetchFault then .error .store
  else .ok (((s.rows.filter pred).drop off).take lim)

/-- The GET `/` list endpoint: validate the query, compute
`offset = (pageNumber - 1) * pageSize`, run the count query then the fetch
query (an `await` whose rejection propagates fails the whole handler), and
assemble the response with `createPage`. The second component counts how many
queries reached the store. -/
def listRoute (s : StoreConn) (q : RawListQuery) :
    Except ListError (Page Entity) × Nat :=
  match validateListQuery q with
  | none => (.error .validation, 0)
  | some prm =>
    let offset := (prm.pageNumber - 1) * prm.pageSize
    match runCount s (rowPred prm.name) with
    | .error e => (.error e, 1)
    | .ok totalCount =>
      match runFetch s (rowPred prm.name) prm.pageSize offset with
      | .error e => (.error e, 2)
      | .ok items =>
        (.ok (createPage items totalCount prm.pageNumber prm.pageSize), 2)

/-- The page returned by a list request, when one is returned at all. -/
def listPage (s : StoreConn) (q : RawListQuery) : Option (Page Entity) :=
  (listRoute s q).1.toOption

/-- Relevant constants of the `http-status-codes` package. -/
def statusCreated : Nat := 201

/-- HTTP 200, `StatusCodes.OK`. -/
def statusOk : Nat := 200

/-- HTTP 404, `StatusCodes.NOT_FOUND`. -/
def statusNotFound : Nat := 404

/-- The validated body of an add request: `addEntitySchema` is
`entitySchema.omit({ entityId: true })`, so the body carries every entity field
except the primary key — a client cannot supply an id at all. -/
structure AddEntity where
  name : String
deriving DecidableEq, Repr

/-- The POST `/` endpoint: inserts `{ ...data, entityId: v7() }` and returns
the inserted row with status 201. `gid` stands for the value produced by the
server-side `v7()` call of the `uuid` package. -/
def addRoute (store : List Entity) (gid : String) (data : AddEntity) :
    List Entity × Entity × Nat :=
  let item : Entity := { entityId := gid, name := data.name }
  (store ++ [item], item, statusCreated)

/-- The validated body of an edit request: `editEntitySchema` is
`entitySchema.pick({ name: true })` — only the editable fields. -/
structure EditEntity where
  name : String
deriving DecidableEq, Repr

/-- Outcome of an edit request: a not-found problem response, or the updated
row with a status code. -/
inductive EditOutcome where
  | notFound (status : Nat)
  | ok (item : Entity) (status : Nat)
deriving DecidableEq, Repr

/-- The PUT `/:entityId` endpoint: select the row with the given id
(`.limit(1)`); if none exists answer `notFoundError` (404) leaving the table
untouched; otherwise `update(entities).set(data).where(eq(...)).returning()`
and answer the updated row with status 200. -/
def editRoute (store : List Entity) (eid : String) (data : EditEntity) :
    List Entity × EditOutcome :=
  match (store.filter (fun e => e.entityId = eid)).take 1 with
  | [] => (store, .notFound statusNotFound)
  | e0 :: _ =>
    (store.map (fun e => if e.entityId = eid then { e with name := data.name } else e),
     .ok { e0 with name := data.name } statusOk)

/-- The spec sentence's reading of the name filter: case-insensitive substring
containment ("case-insensitive substring match on a text field"). Spec-side
definition, to be compared with the behavior of `rowPred` inside `listRoute`. -/
def ciContains (needle hay : String) : Bool :=
  (hay.data.map Char.toLower).tails.any
    (fun u => needle.data.map Char.toLower == u.take needle.data.length)

/-! ### Helper lemmas -/

theorem validatePageNumber_pos (v : RawValue) (pn : Nat)
    (h : validatePageNumber v = some pn) : 1 ≤ pn := by
  rcases v with _ | n | _ <;> simp [validatePageNumber] at h <;> omega

theorem validatePageSize_bounds (v : RawValue) (ps : Nat)
    (h : validatePageSize v = some ps) : 1 ≤ ps ∧ ps ≤ maxPageSize := by
  rcases v with _ | n | _ <;> simp [validatePageSize, maxPageSize] at h ⊢ <;> omega

theorem validateListQuery_bounds (q : RawListQuery) (prm : ListParams)
    (hv : validateListQuery q = some prm) :
    1 ≤ prm.pageNumber ∧ 1 ≤ prm.pageSize ∧ prm.pageSize ≤ maxPageSize ∧
      prm.name = q.name := by
  unfold validateListQuery at hv
  rcases hpn : validatePageNumber q.pageNumber with _ | pn <;> rw [hpn] at hv
  · simp at hv
  rcases hps : validatePageSize q.pageSize with _ | ps <;> rw [hps] at hv
  · simp at hv
  simp only [Option.some.injEq] at hv
  subst hv
  refine ⟨validatePageNumber_pos _ _ hpn, (validatePageSize_bounds _ _ hps).1,
    (validatePageSize_bounds _ _ hps).2, rfl⟩

theorem listRoute_success (s : StoreConn) (q : RawListQuery) (prm : ListParams)
    (hv : validateListQuery q = some prm)
    (hc : s.countFault = false) (hf : s.fetchFault = false) :
    listRoute s q =
      (.ok (createPage
            (((s.rows.filter (rowPred prm.name)).drop
                ((prm.pageNumber - 1) * prm.pageSize)).take prm.pageSize)
            (s.rows.filter (rowPred prm.name)).length
            prm.pageNumber prm.pageSize), 2) := by
  simp [listRoute, runCount, runFetch, hv, hc, hf]

theorem ceil_formula_mul_ge (tc ps : Nat) (hps : 1 ≤ ps) :
    tc ≤ ((tc + ps - 1) / ps) * ps := by
  have hdm := Nat.div_add_mod (tc + ps - 1) ps
  have hlt : (tc + ps - 1) % ps < ps := Nat.mod_lt _ (by omega)
  rw [Nat.mul_comm]
  omega

theorem ceil_formula_eq_ceil (tc ps : Nat) (hps : 1 ≤ ps) :
    ((tc + ps - 1) / ps : Nat) = ⌈(tc : ℚ) / (ps : ℚ)⌉₊ := by
  have hpsQ : (0 : ℚ) < (ps : ℚ) := by positivity
  rcases Nat.eq_zero_or_pos tc with h0 | hpos
  · subst h0
    simp [Nat.div_eq_of_lt (by omega : ps - 1 < ps)]
  · have hmul := ceil_formula_mul_ge tc ps hps
    have hdm := Nat.div_add_mod (tc + ps - 1) ps
    have hlt : (tc + ps - 1) % ps < ps := Nat.mod_lt _ (by omega)
    set qn := (tc + ps - 1) / ps with hqn
    have hqn1 : 1 ≤ qn := by
      rcases Nat.eq_zero_or_pos qn with hz | hp
    -- if qn were 0 then tc ≤ 0 contradicts tc ≥ 1
      · rw [hz] at hmul; omega
      · exact hp
    have hd : (qn - 1) * ps = ps * qn - ps := by
      rw [Nat.sub_mul, Nat.one_mul, Nat.mul_comm]
    have hlow : (qn - 1) * ps < tc := by omega
    symm
    rw [Nat.ceil_eq_iff (by omega : qn ≠ 0)]
    constructor
    · rw [lt_div_iff₀ hpsQ]
      exact_mod_cast hlow
    · rw [div_le_iff₀ hpsQ]
      exact_mod_cast hmul

theorem flatten_window {α : Type} (L : List α) (ps : Nat) (tp : Nat) :
    ((List.range tp).map (fun k => (L.drop (k * ps)).take ps)).flatten =
      L.take (tp * ps) := by
  induction tp with
  | zero => simp
  | succ n ih =>
    rw [List.range_succ, List.map_append, List.flatten_append, ih]
    simp only [List.map_cons, List.map_nil, List.flatten_cons, List.flatten_nil,
      List.append_nil]
    rw [Nat.succ_mul, List.take_add]

theorem likeMatch_percent_cons (ps t : List Char) :
    likeMatch ('%' :: ps) t = t.tails.any (fun u => likeMatch ps u) := by
  simp [likeMatch]

theorem likeMatch_plain_append_percent (s : List Char)
    (hs : ∀ c ∈ s, c ≠ '%' ∧ c ≠ '_') (t : List Char) :
    (likeMatch (s ++ ['%']) t = true ↔ s <+: t) := by
  induction s generalizing t with
  | nil =>
    simp only [List.nil_append]
    rw [likeMatch_percent_cons, List.any_eq_true]
    constructor
    · intro _
      exact List.nil_prefix
    · intro _
      refine ⟨[], (List.mem_tails _ _).2 List.nil_suffix, rfl⟩
  | cons a s' ih =>
    have ha : a ≠ '%' ∧ a ≠ '_' := hs a (by simp)
    have ih' := ih (fun c hc => hs c (by simp [hc]))
    cases t with
    | nil =>
      rw [List.cons_append]
      simp [likeMatch, ha.1]
    | cons c ts =>
      rw [List.cons_append]
      simp only [likeMatch, if_neg ha.1]
      rw [ List.cons_prefix_cons]
      have hu : (a == '_') = false := by simp [ha.2]
      simp [hu, ih']

theorem likeMatch_contains_iff (s : List Char) (hs : ∀ c ∈ s, c ≠ '%' ∧ c ≠ '_')
    (t : List Char) :
    (likeMatch ('%' :: (s ++ ['%'])) t = true ↔ s <:+: t) := by
  rw [likeMatch_percent_cons, List.any_eq_true]
  constructor
  · rintro ⟨u, hu, hlm⟩
    exact List.infix_iff_prefix_suffix.2
      ⟨u, (likeMatch_plain_append_percent s hs u).1 hlm, (List.mem_tails _ _).1 hu⟩
  · intro hinf
    obtain ⟨u, hpre, hsuf⟩ := List.infix_iff_prefix_suffix.1 hinf
    exact ⟨u, (List.mem_tails _ _).2 hsuf, (likeMatch_plain_append_percent s hs u).2 hpre⟩

theorem rowPred_infix (n : String) (hne : n ≠ "")
    (hplain : ∀ c ∈ n.data, c ≠ '%' ∧ c ≠ '_') (e : Entity) :
    rowPred (some n) e = decide (n.data <:+: e.name.data) := by
  have hemp : n.isEmpty = false := by
    rcases h : n.isEmpty with _ | _
    · rfl
    · exact absurd ((String.isEmpty_iff n).1 h) hne
  have hdata : ("%" ++ n ++ "%").data = '%' :: (n.data ++ ['%']) := by
    rw [String.data_append, String.data_append]
    rfl
  have hrp : rowPred (some n) e = likeMatch ('%' :: (n.data ++ ['%'])) e.name.data := by
    simp [rowPred, nameFilters, hemp, hdata]
  rw [hrp]
  rcases hlm : likeMatch ('%' :: (n.data ++ ['%'])) e.name.data with _ | _
  · have hnot : ¬ (n.data <:+: e.name.data) := fun hin => by
      rw [(likeMatch_contains_iff n.data hplain e.name.data).2 hin] at hlm
      cases hlm
    simp [hnot]
  · simp [(likeMatch_contains_iff n.data hplain e.name.data).1 hlm]

/-! ### Claim theorems -/

/-- C1: for every record store, every filter set, and all valid
`pageNumber ≥ 1`, `pageSize ≥ 1`, the list operation computes
`offset = (pageNumber - 1) * pageSize` and returns a page whose items sequence
has length `min(pageSize, max(0, totalCount - offset))`, where `totalCount` is
the number of records satisfying the filters (the subtraction on ℕ is
truncated, so it already is `max 0` of the integer difference). -/
theorem listRoute_items_length (s : StoreConn) (q : RawListQuery)
    (prm : ListParams) (hv : validateListQuery q = some prm)
    (hc : s.countFault = false) (hf : s.fetchFault = false) :
    ∃ page : Page Entity, (listRoute s q).1 = .ok page ∧
      page.totalCount = (s.rows.filter (rowPred prm.name)).length ∧
      page.items.length =
        min prm.pageSize
          (page.totalCount - (prm.pageNumber - 1) * prm.pageSize) := by
  rw [listRoute_success s q prm hv hc hf]
  refine ⟨_, rfl, rfl, ?_⟩
  simp [createPage]

/-- Witness for C1: a store of three rows, page 2 of size 2 holds one item. -/
theorem listRoute_items_length_witness :
    ∃ page : Page Entity,
      (listRoute ⟨[⟨"1", "a"⟩, ⟨"2", "b"⟩, ⟨"3", "c"⟩], false, false⟩
          ⟨.intVal 2, .intVal 2, none⟩).1 = .ok page ∧
      page.totalCount =
        ([⟨"1", "a"⟩, ⟨"2", "b"⟩, ⟨"3", "c"⟩].filter (rowPred none)).length ∧
      page.items.length = min 2 (page.totalCount - (2 - 1) * 2) :=
  listRoute_items_length ⟨[⟨"1", "a"⟩, ⟨"2", "b"⟩, ⟨"3", "c"⟩], false, false⟩
    ⟨.intVal 2, .intVal 2, none⟩ ⟨2, 2, none⟩ (by decide) rfl rfl

/-- C2: in every page returned by the list operation, `totalPages` equals
`ceil(totalCount / pageSize)` (stated with the mathematical ceiling of the
rational quotient), and `totalPages = 0` whenever `totalCount = 0`. -/
theorem listRoute_totalPages_ceil (s : StoreConn) (q : RawListQuery)
    (prm : ListParams) (hv : validateListQuery q = some prm)
    (hc : s.countFault = false) (hf : s.fetchFault = false) :
    ∃ page : Page Entity, (listRoute s q).1 = .ok page ∧
      page.totalPages = ⌈(page.totalCount : ℚ) / (prm.pageSize : ℚ)⌉₊ ∧
      (page.totalCount = 0 → page.totalPages = 0) := by
  obtain ⟨hpn, hps, _, _⟩ := validateListQuery_bounds q prm hv
  rw [listRoute_success s q prm hv hc hf]
  refine ⟨_, rfl, ?_, ?_⟩
  · exact ceil_formula_eq_ceil _ _ hps
  · intro h0
    have h0' : (s.rows.filter (rowPred prm.name)).length = 0 := h0
    show ((s.rows.filter (rowPred prm.name)).length + prm.pageSize - 1) /
        prm.pageSize = 0
    rw [h0']
    exact Nat.div_eq_of_lt (by omega)

/-- Witness for C2: an empty store gives `totalPages = 0 = ⌈0 / 10⌉`. -/
theorem listRoute_totalPages_ceil_witness :
    ∃ page : Page Entity,
      (listRoute ⟨[], false, false⟩ ⟨.missing, .missing, none⟩).1 = .ok page ∧
      page.totalPages = ⌈(page.totalCount : ℚ) / ((10 : Nat) : ℚ)⌉₊ ∧
      (page.totalCount = 0 → page.totalPages = 0) :=
  listRoute_totalPages_ceil ⟨[], false, false⟩ ⟨.missing, .missing, none⟩
    ⟨1, 10, none⟩ (by decide) rfl rfl

/-- The claim's notion of an invalid `pageNumber`: non-positive or
non-integer. -/
def invalidPageNumber : RawValue → Prop
  | .missing => False
  | .intVal n => n ≤ 0
  | .nonInt => True

/-- The claim's notion of an invalid `pageSize`: non-positive, non-integer, or
exceeding the configured maximum. -/
def invalidPageSize : RawValue → Prop
  | .missing => False
  | .intVal n => n ≤ 0 ∨ (maxPageSize : Int) < n
  | .nonInt => True

theorem validatePageNumber_invalid (v : RawValue) (h : invalidPageNumber v) :
    validatePageNumber v = none := by
  rcases v with _ | n | _
  · exact absurd h (by simp [invalidPageNumber])
  · simp only [invalidPageNumber] at h
    simp [validatePageNumber, show ¬(1 ≤ n) by omega]
  · rfl

theorem validatePageSize_invalid (v : RawValue) (h : invalidPageSize v) :
    validatePageSize v = none := by
  rcases v with _ | n | _
  · exact absurd h (by simp [invalidPageSize])
  · simp only [invalidPageSize, maxPageSize] at h
    simp only [validatePageSize, maxPageSize]
    rw [if_neg]
    omega
  · rfl

/-- C3: a request whose `pageNumber` or `pageSize` is invalid (non-positive,
non-integer, or — for the size — beyond the configured maximum) is answered
with a validation error before any query executes: the store receives zero
calls, and the result carries no page built from clamped values. -/
theorem listRoute_invalid_rejected (s : StoreConn) (q : RawListQuery)
    (h : invalidPageNumber q.pageNumber ∨ invalidPageSize q.pageSize) :
    listRoute s q = (.error .validation, 0) := by
  have hval : validateListQuery q = none := by
    unfold validateListQuery
    rcases h with h | h
    · rw [validatePageNumber_invalid _ h]
    · rw [validatePageSize_invalid _ h]
      rcases validatePageNumber q.pageNumber with _ | _ <;> rfl
  simp [listRoute, hval]

/-- Witness for C3: `pageNumber = 0` is rejected with zero store calls. -/
theorem listRoute_invalid_rejected_witness :
    listRoute ⟨[⟨"1", "a"⟩], false, false⟩ ⟨.intVal 0, .intVal 10, none⟩ =
      (.error .validation, 0) :=
  listRoute_invalid_rejected ⟨[⟨"1", "a"⟩], false, false⟩
    ⟨.intVal 0, .intVal 10, none⟩ (Or.inl (show (0 : Int) ≤ 0 by decide))

/-- C4: a valid request whose `pageNumber` lies beyond the last page succeeds:
the returned page has empty `items` and still carries the correct `totalCount`
and `totalPages` of the filtered store. -/
theorem listRoute_beyond_last_page (s : StoreConn) (q : RawListQuery)
    (prm : ListParams) (hv : validateListQuery q = some prm)
    (hc : s.countFault = false) (hf : s.fetchFault = false)
    (hbeyond : ((s.rows.filter (rowPred prm.name)).length + prm.pageSize - 1) /
        prm.pageSize < prm.pageNumber) :
    ∃ page : Page Entity, (listRoute s q).1 = .ok page ∧ page.items = [] ∧
      page.totalCount = (s.rows.filter (rowPred prm.name)).length ∧
      page.totalPages = ((s.rows.filter (rowPred prm.name)).length +
        prm.pageSize - 1) / prm.pageSize := by
  obtain ⟨hpn, hps, _, _⟩ := validateListQuery_bounds q prm hv
  rw [listRoute_success s q prm hv hc hf]
  refine ⟨_, rfl, ?_, rfl, rfl⟩
  have h1 := ceil_formula_mul_ge (s.rows.filter (rowPred prm.name)).length
    prm.pageSize hps
  have h2 : ((s.rows.filter (rowPred prm.name)).length + prm.pageSize - 1) /
      prm.pageSize ≤ prm.pageNumber - 1 := by omega
  have hoff : (s.rows.filter (rowPred prm.name)).length ≤
      (prm.pageNumber - 1) * prm.pageSize :=
    le_trans h1 (Nat.mul_le_mul_right _ h2)
  simp [createPage, List.drop_eq_nil_of_le hoff]

/-- Witness for C4: one matching row, page 5 of size 10 is empty but keeps
`totalCount = 1`, `totalPages = 1`. -/
theorem listRoute_beyond_last_page_witness :
    ∃ page : Page Entity,
      (listRoute ⟨[⟨"1", "a"⟩], false, false⟩
          ⟨.intVal 5, .intVal 10, none⟩).1 = .ok page ∧
      page.items = [] ∧
      page.totalCount = ([⟨"1", "a"⟩].filter (rowPred none)).length ∧
      page.totalPages =
        (([⟨"1", "a"⟩].filter (rowPred none)).length + 10 - 1) / 10 :=
  listRoute_beyond_last_page ⟨[⟨"1", "a"⟩], false, false⟩
    ⟨.intVal 5, .intVal 10, none⟩ ⟨5, 10, none⟩ (by decide) rfl rfl (by decide)

/-- C8: if the count query or the fetch query fails, the whole list operation
fails — no page is returned at all — and conversely every returned page was
produced with both queries succeeding and carries the real count of the
filtered store, never a defaulted one. -/
theorem listRoute_fault_no_page (s : StoreConn) (q : RawListQuery) :
    ((s.countFault = true ∨ s.fetchFault = true) →
      ∀ page : Page Entity, (listRoute s q).1 ≠ .ok page) ∧
    (∀ page : Page Entity, (listRoute s q).1 = .ok page →
      s.countFault = false ∧ s.fetchFault = false ∧
      ∃ prm, validateListQuery q = some prm ∧
        page.totalCount = (s.rows.filter (rowPred prm.name)).length) := by
  rcases hval : validateListQuery q with _ | prm
  · simp [listRoute, hval]
  · constructor
    · intro hfault page
      rcases hfault with hcf | hff
      · simp [listRoute, runCount, hval, hcf]
      · rcases hc : s.countFault with _ | _ <;>
          simp [listRoute, runCount, runFetch, hval, hc, hff]
    · intro page hpage
      rcases hc : s.countFault with _ | _
      · rcases hf : s.fetchFault with _ | _
        · rw [listRoute_success s q prm hval hc hf] at hpage
          simp only [Except.ok.injEq] at hpage
          exact ⟨rfl, rfl, prm, rfl, by rw [← hpage] ; rfl⟩
        · simp [listRoute, runCount, runFetch, hval, hc, hf] at hpage
      · simp [listRoute, runCount, hval, hc] at hpage

/-- Witness for C8: with a failing count query no page comes back; with a
healthy store the returned page carries the filtered count. -/
theorem listRoute_fault_no_page_witness :
    (∀ page : Page Entity,
      (listRoute ⟨[⟨"1", "a"⟩], true, false⟩
          ⟨.intVal 1, .intVal 10, none⟩).1 ≠ .ok page) ∧
    (∀ page : Page Entity,
      (listRoute ⟨[⟨"1", "a"⟩], false, false⟩
          ⟨.intVal 1, .intVal 10, none⟩).1 = .ok page →
      ∃ prm, validateListQuery ⟨.intVal 1, .intVal 10, none⟩ = some prm ∧
        page.totalCount = ([⟨"1", "a"⟩].filter (rowPred prm.name)).length) :=
  ⟨(listRoute_fault_no_page ⟨[⟨"1", "a"⟩], true, false⟩
      ⟨.intVal 1, .intVal 10, none⟩).1 (Or.inl rfl),
   fun page hpage =>
     ((listRoute_fault_no_page ⟨[⟨"1", "a"⟩], false, false⟩
        ⟨.intVal 1, .intVal 10, none⟩).2 page hpage).2.2⟩

/-- C5 counterexample: the fetch query of `listRoute` has no ORDER BY, so the
code fixes no stable key. Sweeping pages 1 and 2 (pageSize 1) over the very
same two-row table, where the two unordered executions enumerate the rows
differently (both orders are SQL-correct answers for the same store), returns
the first record twice and the second record never: the concatenation of the
pages is not the full filtered record set. -/
theorem listRoute_stable_order_counterexample :
    ([⟨"1", "a"⟩, ⟨"2", "b"⟩] : List Entity).Perm [⟨"2", "b"⟩, ⟨"1", "a"⟩] ∧
    listPage ⟨[⟨"1", "a"⟩, ⟨"2", "b"⟩], false, false⟩
        ⟨.intVal 1, .intVal 1, none⟩ = some ⟨[⟨"1", "a"⟩], 2, 1, 1, 2⟩ ∧
    listPage ⟨[⟨"2", "b"⟩, ⟨"1", "a"⟩], false, false⟩
        ⟨.intVal 2, .intVal 1, none⟩ = some ⟨[⟨"1", "a"⟩], 2, 2, 1, 2⟩ ∧
    (⟨"2", "b"⟩ : Entity) ∈ ([⟨"1", "a"⟩, ⟨"2", "b"⟩] : List Entity) ∧
    (⟨"2", "b"⟩ : Entity) ∉ ([⟨"1", "a"⟩] ++ [⟨"1", "a"⟩] : List Entity) := by
  decide

/-- C5 amended: the fetch query applies no ordering of its own; provided every
page query enumerates the store's rows in one common fixed order, the items of
`listRoute` are the window of the filtered rows at offset
`(pageNumber - 1) * pageSize`, and the windows of pages `1..totalPages`
concatenate to exactly the full filtered record set, with no duplicates and no
omissions. -/
theorem listRoute_fixed_order_partition (s : StoreConn) (q : RawListQuery)
    (prm : ListParams) (hv : validateListQuery q = some prm)
    (hc : s.countFault = false) (hf : s.fetchFault = false) :
    (∃ page : Page Entity, (listRoute s q).1 = .ok page ∧
      page.items = ((s.rows.filter (rowPred prm.name)).drop
        ((prm.pageNumber - 1) * prm.pageSize)).take prm.pageSize) ∧
    ((List.range (((s.rows.filter (rowPred prm.name)).length + prm.pageSize - 1) /
          prm.pageSize)).map
        (fun k => ((s.rows.filter (rowPred prm.name)).drop (k * prm.pageSize)).take
          prm.pageSize)).flatten = s.rows.filter (rowPred prm.name) := by
  obtain ⟨hpn, hps, _, _⟩ := validateListQuery_bounds q prm hv
  constructor
  · rw [listRoute_success s q prm hv hc hf]
    exact ⟨_, rfl, rfl⟩
  · rw [flatten_window]
    exact List.take_of_length_le (ceil_formula_mul_ge _ _ hps)

/-- Witness for the amended C5 at a three-row store with pageSize 2. -/
theorem listRoute_fixed_order_partition_witness :
    (∃ page : Page Entity,
      (listRoute ⟨[⟨"1", "a"⟩, ⟨"2", "b"⟩, ⟨"3", "c"⟩], false, false⟩
          ⟨.intVal 1, .intVal 2, none⟩).1 = .ok page ∧
      page.items = ((([⟨"1", "a"⟩, ⟨"2", "b"⟩, ⟨"3", "c"⟩] : List Entity).filter
          (rowPred none)).drop ((1 - 1) * 2)).take 2) ∧
    ((List.range (((([⟨"1", "a"⟩, ⟨"2", "b"⟩, ⟨"3", "c"⟩] : List Entity).filter
            (rowPred none)).length + 2 - 1) / 2)).map
        (fun k => ((([⟨"1", "a"⟩, ⟨"2", "b"⟩, ⟨"3", "c"⟩] : List Entity).filter
            (rowPred none)).drop (k * 2)).take 2)).flatten =
      ([⟨"1", "a"⟩, ⟨"2", "b"⟩, ⟨"3", "c"⟩] : List Entity).filter (rowPred none) :=
  listRoute_fixed_order_partition
    ⟨[⟨"1", "a"⟩, ⟨"2", "b"⟩, ⟨"3", "c"⟩], false, false⟩
    ⟨.intVal 1, .intVal 2, none⟩ ⟨1, 2, none⟩ (by decide) rfl rfl

/-- C6 counterexample: two calls with identical parameters against the same
unmodified table (the two row lists are permutations of each other — without
an ORDER BY both are SQL-correct enumerations of one store) return different
pages, so the operation is not deterministic in the claimed sense. -/
theorem listRoute_determinism_counterexample :
    ([⟨"1", "a"⟩, ⟨"2", "b"⟩] : List Entity).Perm [⟨"2", "b"⟩, ⟨"1", "a"⟩] ∧
    listPage ⟨[⟨"1", "a"⟩, ⟨"2", "b"⟩], false, false⟩
        ⟨.intVal 1, .intVal 1, none⟩ ≠
      listPage ⟨[⟨"2", "b"⟩, ⟨"1", "a"⟩], false, false⟩
        ⟨.intVal 1, .intVal 1, none⟩ := by
  decide

/-- C6 amended: `listRoute` is a pure function of its inputs — identical store
observations give identical results — and across two observations of the same
table (equal row multisets) the two pages agree on `totalCount`, `totalPages`,
`pageNumber`, `pageSize` and the number of items; only the identity of the
items may differ, because the unordered fetch leaves the window's contents to
the store's enumeration order. -/
theorem listRoute_perm_invariants (s1 s2 : StoreConn) (q : RawListQuery)
    (hperm : s1.rows.Perm s2.rows)
    (hc1 : s1.countFault = false) (hf1 : s1.fetchFault = false)
    (hc2 : s2.countFault = false) (hf2 : s2.fetchFault = false) :
    (s1 = s2 → listRoute s1 q = listRoute s2 q) ∧
    ∀ prm, validateListQuery q = some prm →
      ∃ p1 p2 : Page Entity, (listRoute s1 q).1 = .ok p1 ∧
        (listRoute s2 q).1 = .ok p2 ∧
        p1.totalCount = p2.totalCount ∧ p1.totalPages = p2.totalPages ∧
        p1.pageNumber = p2.pageNumber ∧ p1.pageSize = p2.pageSize ∧
        p1.items.length = p2.items.length := by
  refine ⟨fun h => by rw [h], ?_⟩
  intro prm hv
  have hlen : (s1.rows.filter (rowPred prm.name)).length =
      (s2.rows.filter (rowPred prm.name)).length :=
    (hperm.filter _).length_eq
  rw [listRoute_success s1 q prm hv hc1 hf1,
    listRoute_success s2 q prm hv hc2 hf2]
  refine ⟨_, _, rfl, rfl, hlen, ?_, rfl, rfl, ?_⟩
  · simp [createPage, hlen]
  · simp [createPage, hlen]

/-- Witness for the amended C6: two permuted observations of one two-row
store, page 1 of size 1. -/
theorem listRoute_perm_invariants_witness :
    ∃ p1 p2 : Page Entity,
      (listRoute ⟨[⟨"1", "a"⟩, ⟨"2", "b"⟩], false, false⟩
          ⟨.intVal 1, .intVal 1, none⟩).1 = .ok p1 ∧
      (listRoute ⟨[⟨"2", "b"⟩, ⟨"1", "a"⟩], false, false⟩
          ⟨.intVal 1, .intVal 1, none⟩).1 = .ok p2 ∧
      p1.totalCount = p2.totalCount ∧ p1.totalPages = p2.totalPages ∧
      p1.pageNumber = p2.pageNumber ∧ p1.pageSize = p2.pageSize ∧
      p1.items.length = p2.items.length :=
  (listRoute_perm_invariants ⟨[⟨"1", "a"⟩, ⟨"2", "b"⟩], false, false⟩
      ⟨[⟨"2", "b"⟩, ⟨"1", "a"⟩], false, false⟩ ⟨.intVal 1, .intVal 1, none⟩
      (by decide) rfl rfl rfl rfl).2 ⟨1, 1, none⟩ (by decide)

/-- C7 counterexample: drizzle's `like` is SQL LIKE, which matches
case-sensitively. "Apple" contains the substring "apple" case-insensitively
(the claim's reading would count one record), yet the route counts zero rows
for the filter `name=apple` over a store whose only record is named "Apple". -/
theorem listRoute_case_sensitivity_counterexample :
    ciContains "apple" "Apple" = true ∧
    (([⟨"i1", "Apple"⟩] : List Entity).filter
        (fun e => ciContains "apple" e.name)).length = 1 ∧
    listPage ⟨[⟨"i1", "Apple"⟩], false, false⟩
        ⟨.intVal 1, .intVal 10, some "apple"⟩ = some ⟨[], 0, 1, 10, 0⟩ := by
  decide

/-- C7 amended: the filters form a conjunction of zero or more conditions.
With no name filter (or an empty one — JavaScript-falsy) both the count and
the fetch range over all records; with a nonempty, wildcard-free name filter
exactly the records whose name contains the given substring
case-SENSITIVELY (SQL LIKE `%name%`) are counted and fetched. -/
theorem listRoute_filter_conjunction (s : StoreConn) (q : RawListQuery)
    (prm : ListParams) (hv : validateListQuery q = some prm)
    (hc : s.countFault = false) (hf : s.fetchFault = false) :
    ((prm.name = none ∨ prm.name = some "") →
      ∃ page : Page Entity, (listRoute s q).1 = .ok page ∧
        page.totalCount = s.rows.length ∧
        page.items = (s.rows.drop
          ((prm.pageNumber - 1) * prm.pageSize)).take prm.pageSize) ∧
    (∀ n : String, prm.name = some n → n ≠ "" →
      (∀ c ∈ n.data, c ≠ '%' ∧ c ≠ '_') →
      ∃ page : Page Entity, (listRoute s q).1 = .ok page ∧
        page.totalCount =
          (s.rows.filter (fun e => decide (n.data <:+: e.name.data))).length ∧
        page.items = ((s.rows.filter
            (fun e => decide (n.data <:+: e.name.data))).drop
          ((prm.pageNumber - 1) * prm.pageSize)).take prm.pageSize) := by
  constructor
  · intro hn
    rw [listRoute_success s q prm hv hc hf]
    have h1 : rowPred prm.name = fun _ => true := by
      rcases hn with hn | hn <;> rw [hn] <;> funext e <;> rfl
    have hall : s.rows.filter (rowPred prm.name) = s.rows := by
      rw [h1, List.filter_true s.rows]
    exact ⟨_, rfl, by rw [hall] ; rfl, by rw [hall] ; rfl⟩
  · intro n hn hne hplain
    rw [listRoute_success s q prm hv hc hf]
    have heq : s.rows.filter (rowPred prm.name) =
        s.rows.filter (fun e => decide (n.data <:+: e.name.data)) := by
      rw [hn]
      exact List.filter_congr (fun e _ => rowPred_infix n hne hplain e)
    exact ⟨_, rfl, by rw [heq] ; rfl, by rw [heq] ; rfl⟩

/-- Witness for the amended C7: a two-row store queried once with no filter
and once with the filter `name=a`. -/
theorem listRoute_filter_conjunction_witness :
    (∃ page : Page Entity,
      (listRoute ⟨[⟨"1", "aa"⟩, ⟨"2", "bb"⟩], false, false⟩
          ⟨.intVal 1, .intVal 10, none⟩).1 = .ok page ∧
      page.totalCount = ([⟨"1", "aa"⟩, ⟨"2", "bb"⟩] : List Entity).length ∧
      page.items = (([⟨"1", "aa"⟩, ⟨"2", "bb"⟩] : List Entity).drop
        ((1 - 1) * 10)).take 10) ∧
    (∃ page : Page Entity,
      (listRoute ⟨[⟨"1", "aa"⟩, ⟨"2", "bb"⟩], false, false⟩
          ⟨.intVal 1, .intVal 10, some "a"⟩).1 = .ok page ∧
      page.totalCount = (([⟨"1", "aa"⟩, ⟨"2", "bb"⟩] : List Entity).filter
        (fun e => decide ("a".data <:+: e.name.data))).length ∧
      page.items = ((([⟨"1", "aa"⟩, ⟨"2", "bb"⟩] : List Entity).filter
          (fun e => decide ("a".data <:+: e.name.data))).drop
        ((1 - 1) * 10)).take 10) :=
  ⟨(listRoute_filter_conjunction ⟨[⟨"1", "aa"⟩, ⟨"2", "bb"⟩], false, false⟩
      ⟨.intVal 1, .intVal 10, none⟩ ⟨1, 10, none⟩ (by decide) rfl rfl).1
      (Or.inl rfl),
   (listRoute_filter_conjunction ⟨[⟨"1", "aa"⟩, ⟨"2", "bb"⟩], false, false⟩
      ⟨.intVal 1, .intVal 10, some "a"⟩ ⟨1, 10, some "a"⟩ (by decide) rfl rfl).2
      "a" rfl (by decide) (by decide)⟩

/-- C9: the created record's primary key is exactly the server-generated
UUIDv7 (`gid` is the output of the `v7()` call; the add schema has no id
field, so no client-supplied id can enter at all), the remaining fields of the
returned item equal the validated request body, the returned item is precisely
the row inserted into the store, and the status is 201 Created. -/
theorem addRoute_spec (store : List Entity) (gid : String) (data : AddEntity) :
    (addRoute store gid data).2.1.entityId = gid ∧
    (addRoute store gid data).2.1.name = data.name ∧
    (addRoute store gid data).2.2 = statusCreated ∧
    (addRoute store gid data).1 = store ++ [(addRoute store gid data).2.1] :=
  ⟨rfl, rfl, rfl, rfl⟩

/-- C10: an edit whose id matches no record answers 404 with the store left
unchanged (no update runs); an edit of an existing id rewrites exactly the
editable field of the records with that id (every other record and every id
untouched) and answers the updated item with 200. -/
theorem editRoute_spec (store : List Entity) (eid : String) (d : EditEntity) :
    ((∀ e ∈ store, e.entityId ≠ eid) →
      editRoute store eid d = (store, .notFound statusNotFound)) ∧
    ((∃ e ∈ store, e.entityId = eid) →
      (editRoute store eid d).1 = store.map
        (fun e => if e.entityId = eid then { e with name := d.name } else e) ∧
      ∃ e0 ∈ store, e0.entityId = eid ∧
        (editRoute store eid d).2 = .ok { e0 with name := d.name } statusOk) := by
  constructor
  · intro hnone
    have hfil : store.filter (fun e => e.entityId = eid) = [] := by
      rw [ List.filter_eq_nil_iff]
      intro e he
      simp [hnone e he]
    simp [editRoute, hfil]
  · intro hex
    rcases hfe : store.filter (fun e => e.entityId = eid) with _ | ⟨e0, rest⟩
    · obtain ⟨e, he, heq⟩ := hex
      have : e ∈ store.filter (fun e => e.entityId = eid) :=
        List.mem_filter.2 ⟨he, by simp [heq]⟩
      rw [hfe] at this
      cases this
    · have he0 : e0 ∈ store ∧ e0.entityId = eid := by
        have : e0 ∈ store.filter (fun e => e.entityId = eid) := by
          rw [hfe]
          exact List.mem_cons_self e0 rest
        have h := List.mem_filter.1 this
        exact ⟨h.1, by simpa using h.2⟩
      refine ⟨?_, e0, he0.1, he0.2, ?_⟩
      · simp [editRoute, hfe]
      · simp [editRoute, hfe]

/-- Witness for C10: a one-row store edited under a missing id and under its
own id. -/
theorem editRoute_spec_witness :
    editRoute [⟨"a", "x"⟩] "b" ⟨"z"⟩ = ([⟨"a", "x"⟩], .notFound statusNotFound) ∧
    ((editRoute [⟨"a", "x"⟩] "a" ⟨"z"⟩).1 = ([⟨"a", "x"⟩] : List Entity).map
        (fun e => if e.entityId = "a" then { e with name := "z" } else e) ∧
      ∃ e0 ∈ ([⟨"a", "x"⟩] : List Entity), e0.entityId = "a" ∧
        (editRoute [⟨"a", "x"⟩] "a" ⟨"z"⟩).2 = .ok { e0 with name := "z" } statusOk) :=
  ⟨(editRoute_spec [⟨"a", "x"⟩] "b" ⟨"z"⟩).1 (by decide),
   (editRoute_spec [⟨"a", "x"⟩] "a" ⟨"z"⟩).2 ⟨⟨"a", "x"⟩, by decide, rfl⟩⟩
